import Mathlib

/-!
Verification development for the `goft` API-client core (package `ftapi`
and the `repo path` command).

The HTTP exchange is embedded shallowly: a request is a record of method,
URL, content type and body; a response is a record of status code, the
hourly rate-limit-remaining header and a body string.  The transport
(`http.Client.Do`) is an explicit function parameter, and every embedded
operation additionally returns the number of times the transport was
invoked, so that "no network I/O happened" is expressible.  Resource
methods absent from the sources (only their tests survive) are modelled
from the specification; each such definition carries a doc comment
starting with "Modelled from the spec:".
-/

namespace Goft

/-- An outbound HTTP request, as built by the client. -/
structure Request where
  method : String
  url : String
  contentType : String
  body : String
deriving DecidableEq, Repr

/-- A completed HTTP response: status code, the remaining-quota header
(`X-Hourly-Ratelimit-Remaining`, absent when the server did not send it)
and the body. -/
structure Response where
  status : Nat
  hourlyRatelimitRemaining : Option String
  body : String
deriving DecidableEq, Repr

/-- The `FtAPI` client struct from `pkg/ftapi/ftapi.go`: it holds the base
endpoint; the authenticated `http.Client` is passed around explicitly as a
transport function. -/
structure FtAPI where
  apiEndpoint : String
deriving DecidableEq, Repr

/-- `New` from `pkg/ftapi/ftapi.go`. -/
def FtAPI.new (apiEndpoint : String) : FtAPI :=
  { apiEndpoint := apiEndpoint }

/-- `do` from `pkg/ftapi/ftapi.go` (line 31): it forwards the request to
the authenticated HTTP client and nothing else. -/
def FtAPI.doReq (httpDo : Request → Response) (req : Request) : Response :=
  httpDo req

/-- `Get` from `pkg/ftapi/ftapi.go` (lines 36-42): build a GET request for
`apiEndpoint ++ url`; a construction failure is returned at once, otherwise
the request is executed via `do`.  `newReq` stands for `http.NewRequest`
(an external library call, hence a parameter); the second component of the
result counts transport invocations. -/
def FtAPI.get (ft : FtAPI) (newReq : String → String → Except String Request)
    (httpDo : Request → Response) (url : String) :
    Except String Response × Nat :=
  match newReq "GET" (ft.apiEndpoint ++ url) with
  | Except.error e => (Except.error e, 0)
  | Except.ok req => (Except.ok (FtAPI.doReq httpDo req), 1)

/-- A transport answering every request with status 429, remaining-quota
header `"0"` and body `Not ok` — the exchange staged by `TestHourlyLimit`. -/
def rateLimitedTransport : Request → Response :=
  fun _ => { status := 429, hourlyRatelimitRemaining := some "0", body := "Not ok" }

/-- A request builder that always succeeds (the behaviour of
`http.NewRequest` on a well-formed URL). -/
def plainNewReq : String → String → Except String Request :=
  fun method url => Except.ok { method := method, url := url, contentType := "", body := "" }

/-- Modelled from the spec: the ResponseClassifier (spec 4.2), whose
implementation is absent from the sources (only the tests of the resource
methods survive).  Precedence: a remaining-quota header equal to `"0"`
classifies as rate-limited regardless of status; then a 2xx status is a
success; then 404 is the operation's not-found error; any other status is
the operation's generic failure. -/
def classify (notFoundMsg failMsg : String) (resp : Response) :
    Except String String :=
  if resp.hourlyRatelimitRemaining = some "0" then
    Except.error "exceeded rate limit"
  else if 200 ≤ resp.status ∧ resp.status < 300 then
    Except.ok resp.body
  else if resp.status = 404 then
    Except.error notFoundMsg
  else
    Except.error failMsg

/-- Modelled from the spec: the error surface of `SetUserImage` (spec 4.3),
whose implementation is absent from the sources; it classifies the response
with the user-specific not-found message and the fixed profile-image
failure message, and returns `none` on success. -/
def setUserImageClassify (resp : Response) : Option String :=
  match classify "user not found" "failed setting profile image" resp with
  | Except.ok _ => none
  | Except.error m => some m

/-- C1: the `Get` of `pkg/ftapi/ftapi.go` evaluated at the exchange of
`TestHourlyLimit` (remaining-quota header `"0"`, status 429): the code
returns the response with no error, where the claim (and the test) require
the error "exceeded rate limit" and no response value. -/
theorem get_returns_response_despite_zero_quota :
    (FtAPI.new "http://server").get plainNewReq rateLimitedTransport "/v2/users"
      = (Except.ok { status := 429, hourlyRatelimitRemaining := some "0", body := "Not ok" }, 1) :=
  rfl

/-- A campus record, with the fields the tests inspect (spec 3, data
model). -/
structure Campus where
  id : Nat
  name : String
  timeZone : String
  usersCount : Nat
  vogsphereID : Nat
deriving DecidableEq, Repr

/-- A campus-user association; `isPrimary` marks the user's primary
campus (spec 3, data model). -/
structure CampusUser where
  id : Nat
  userID : Nat
  campusID : Nat
  isPrimary : Bool
deriving DecidableEq, Repr

/-- The `User` DTO (spec 3, data model): identity and profile attributes
plus the owned `Campus` and `CampusUser` collections. -/
structure User where
  id : Nat
  login : String
  email : String
  firstName : String
  lastName : String
  usualFirstName : String
  url : String
  phone : String
  kind : String
  password : String
  poolMonth : String
  poolYear : String
  isStaff : Bool
  correctionPoint : Nat
  campuses : List Campus
  campusUsers : List CampusUser
deriving DecidableEq, Repr

/-- Modelled from the spec: the success path of `CreateUser` (spec 4.3),
whose implementation is absent from the sources.  On success the server's
assigned identity and canonical URL are back-filled onto the caller's
`User`; mutation in place is embedded as returning the updated record. -/
def createUserApply (u : User) (assignedID : Nat) (assignedURL : String) : User :=
  { u with id := assignedID, url := assignedURL }

/-- Modelled from the spec: `GetPrimaryCampus` (spec 3, data model),
absent from the sources; it resolves the campus-user entry with the
primary flag to the campus with that entry's campus id, or returns
nothing. -/
def User.GetPrimaryCampus (u : User) : Option Campus :=
  match u.campusUsers.find? (fun cu => cu.isPrimary) with
  | none => none
  | some cu => u.campuses.find? (fun c => c.id == cu.campusID)

/-- C2 counterexample: a 404 response that also carries a remaining-quota
header of `"0"` yields the rate-limit error, not "user not found" — the
quota check takes precedence over status inspection (spec 4.2), so the
claim does not hold for every response with status 404. -/
theorem setUserImage_404_with_zero_quota_is_rate_limited :
    setUserImageClassify { status := 404, hourlyRatelimitRemaining := some "0", body := "" }
      = some "exceeded rate limit"
    ∧ setUserImageClassify { status := 404, hourlyRatelimitRemaining := some "0", body := "" }
      ≠ some "user not found" := by
  constructor
  · rfl
  · intro h
    simp [setUserImageClassify, classify] at h

/-- C2 (amended): for every response whose remaining-quota header is not
`"0"`, status 404 yields exactly "user not found" (whatever the body), and
any other non-2xx status yields exactly "failed setting profile image"
(whatever the status value and body). -/
theorem setUserImage_status_mapping (resp : Response)
    (hq : resp.hourlyRatelimitRemaining ≠ some "0") :
    (resp.status = 404 → setUserImageClassify resp = some "user not found")
    ∧ (¬ (200 ≤ resp.status ∧ resp.status < 300) → resp.status ≠ 404 →
        setUserImageClassify resp = some "failed setting profile image") := by
  constructor
  · intro h404
    simp [setUserImageClassify, classify, hq, h404]
  · intro hfail h404
    simp [setUserImageClassify, classify, hq, hfail, h404]

/-- Witness for C2's amended theorem at the exchanges of
`TestSetUserImageWithNotFound` (status 404, no quota header) and
`TestSetUserImageWithFailure` (status 500, no quota header). -/
theorem setUserImage_status_mapping_witness :
    setUserImageClassify { status := 404, hourlyRatelimitRemaining := none, body := "missing" }
      = some "user not found"
    ∧ setUserImageClassify { status := 500, hourlyRatelimitRemaining := none, body := "boom" }
      = some "failed setting profile image" := by
  constructor
  · exact (setUserImage_status_mapping
      { status := 404, hourlyRatelimitRemaining := none, body := "missing" }
      (by decide)).1 rfl
  · exact (setUserImage_status_mapping
      { status := 500, hourlyRatelimitRemaining := none, body := "boom" }
      (by decide)).2 (by decide) (by decide)

/-- If filtering a list by `p` leaves exactly `[a]`, then `a` is also the
first element satisfying `p`. -/
theorem find?_of_filter_eq_singleton {α : Type} (p : α → Bool) (l : List α) (a : α)
    (h : l.filter p = [a]) : l.find? p = some a := by
  induction l with
  | nil => simp at h
  | cons x xs ih =>
    rw [List.filter_cons] at h
    by_cases hx : p x
    · simp only [hx, if_true] at h
      obtain ⟨rfl, -⟩ := List.cons_eq_cons.mp h
      exact List.find?_cons_of_pos _ hx
    · simp only [hx, if_false] at h
      rw [List.find?_cons_of_neg _ hx]
      exact ih h

/-- C4: on a successful `CreateUser`, the caller's `User` carries the
server-assigned identity and canonical URL afterwards, and every other
caller-supplied field is unchanged. -/
theorem createUser_backfills_id_and_url_only (u : User) (assignedID : Nat)
    (assignedURL : String) :
    (createUserApply u assignedID assignedURL).id = assignedID
    ∧ (createUserApply u assignedID assignedURL).url = assignedURL
    ∧ (createUserApply u assignedID assignedURL).login = u.login
    ∧ (createUserApply u assignedID assignedURL).email = u.email
    ∧ (createUserApply u assignedID assignedURL).firstName = u.firstName
    ∧ (createUserApply u assignedID assignedURL).lastName = u.lastName
    ∧ (createUserApply u assignedID assignedURL).usualFirstName = u.usualFirstName
    ∧ (createUserApply u assignedID assignedURL).phone = u.phone
    ∧ (createUserApply u assignedID assignedURL).kind = u.kind
    ∧ (createUserApply u assignedID assignedURL).password = u.password
    ∧ (createUserApply u assignedID assignedURL).poolMonth = u.poolMonth
    ∧ (createUserApply u assignedID assignedURL).poolYear = u.poolYear
    ∧ (createUserApply u assignedID assignedURL).isStaff = u.isStaff
    ∧ (createUserApply u assignedID assignedURL).correctionPoint = u.correctionPoint
    ∧ (createUserApply u assignedID assignedURL).campuses = u.campuses
    ∧ (createUserApply u assignedID assignedURL).campusUsers = u.campusUsers :=
  ⟨rfl, rfl, rfl, rfl, rfl, rfl, rfl, rfl, rfl, rfl, rfl, rfl, rfl, rfl, rfl, rfl⟩

/-- C6: when exactly one campus-user entry carries the primary flag and the
campus list holds exactly one campus with that entry's campus id,
`GetPrimaryCampus` returns that campus; when no entry carries the primary
flag, it returns nothing. -/
theorem getPrimaryCampus_resolves_unique_primary :
    (∀ (u : User) (cu : CampusUser) (c : Campus),
        u.campusUsers.filter (fun x => x.isPrimary) = [cu] →
        u.campuses.filter (fun x => x.id == cu.campusID) = [c] →
        u.GetPrimaryCampus = some c)
    ∧ (∀ u : User, (∀ cu ∈ u.campusUsers, cu.isPrimary = false) →
        u.GetPrimaryCampus = none) := by
  constructor
  · intro u cu c hcu hc
    unfold User.GetPrimaryCampus
    rw [find?_of_filter_eq_singleton _ _ _ hcu]
    exact find?_of_filter_eq_singleton _ _ _ hc
  · intro u h
    have hnone : u.campusUsers.find? (fun cu => cu.isPrimary) = none := by
      rw [List.find?_eq_none]
      intro x hx
      simp [h x hx]
    simp [User.GetPrimaryCampus, hnone]

/-- Witness for C6 at the profile of `TestGetUserByLogin` (campus 21
"Benguerir", one campus-user entry with the primary flag) and at the same
profile with the flag cleared. -/
theorem getPrimaryCampus_resolves_unique_primary_witness :
    User.GetPrimaryCampus
      { id := 66356, login := "spoody", email := "mehdi@1337.ma",
        firstName := "Mehdi", lastName := "Bounya", usualFirstName := "",
        url := "https://api.intra.42.fr/v2/users/spoody", phone := "hidden",
        kind := "", password := "", poolMonth := "april", poolYear := "2019",
        isStaff := true, correctionPoint := 5,
        campuses := [{ id := 21, name := "Benguerir",
                       timeZone := "Africa/Casablanca", usersCount := 982,
                       vogsphereID := 11 }],
        campusUsers := [{ id := 57173, userID := 66356, campusID := 21,
                          isPrimary := true }] }
      = some { id := 21, name := "Benguerir", timeZone := "Africa/Casablanca",
               usersCount := 982, vogsphereID := 11 }
    ∧ User.GetPrimaryCampus
      { id := 66356, login := "spoody", email := "mehdi@1337.ma",
        firstName := "Mehdi", lastName := "Bounya", usualFirstName := "",
        url := "https://api.intra.42.fr/v2/users/spoody", phone := "hidden",
        kind := "", password := "", poolMonth := "april", poolYear := "2019",
        isStaff := true, correctionPoint := 5,
        campuses := [{ id := 21, name := "Benguerir",
                       timeZone := "Africa/Casablanca", usersCount := 982,
                       vogsphereID := 11 }],
        campusUsers := [{ id := 57173, userID := 66356, campusID := 21,
                          isPrimary := false }] }
      = none := by
  constructor
  · exact getPrimaryCampus_resolves_unique_primary.1 _
      { id := 57173, userID := 66356, campusID := 21, isPrimary := true }
      { id := 21, name := "Benguerir", timeZone := "Africa/Casablanca",
        usersCount := 982, vogsphereID := 11 }
      (by decide) (by decide)
  · exact getPrimaryCampus_resolves_unique_primary.2 _ (by decide)

/-- A JSON string rendered with surrounding quotes. -/
def quoteStr (v : String) : String :=
  "\"" ++ v ++ "\""

/-- Render one string-valued JSON object field. -/
def encodeStrField (kv : String × String) : String :=
  quoteStr kv.1 ++ ":" ++ quoteStr kv.2

/-- Render a JSON object whose values are all strings, in field order. -/
def encodeStrObj (fs : List (String × String)) : String :=
  "\x7b" ++ String.intercalate "," (fs.map encodeStrField) ++ "\x7d"

/-- Modelled from the spec: the field list of `UpdateUser`'s JSON envelope
(spec 4.3), whose implementation is absent from the sources.  Only fields
explicitly set on the patch are serialized, each under its snake_case key;
an unset (empty) field is omitted entirely.  Keys appear in the sorted
order JSON map serialization produces. -/
def updateUserFields (u : User) : List (String × String) :=
  (if u.email = "" then [] else [("email", u.email)])
  ++ (if u.firstName = "" then [] else [("first_name", u.firstName)])
  ++ (if u.kind = "" then [] else [("kind", u.kind)])
  ++ (if u.lastName = "" then [] else [("last_name", u.lastName)])
  ++ (if u.password = "" then [] else [("password", u.password)])

/-- Modelled from the spec: the serialized body of `UpdateUser`, the field
list wrapped in the `"user"` envelope. -/
def updateUserBody (u : User) : String :=
  "\x7b\"user\":" ++ encodeStrObj (updateUserFields u) ++ "\x7d"

/-- The all-unset `User`, every field at its zero value. -/
def emptyUser : User :=
  { id := 0, login := "", email := "", firstName := "", lastName := "",
    usualFirstName := "", url := "", phone := "", kind := "", password := "",
    poolMonth := "", poolYear := "", isStaff := false, correctionPoint := 0,
    campuses := [], campusUsers := [] }

/-- The first `TestUpdateUser` vector: all five updatable fields set. -/
theorem updateUserBody_all_fields_vector :
    updateUserBody { emptyUser with
        email := "spoody@local.test", firstName := "Spooder",
        lastName := "Webz", password := "test", kind := "student" }
      = "\x7b\"user\":\x7b\"email\":\"spoody@local.test\",\"first_name\":\"Spooder\",\"kind\":\"student\",\"last_name\":\"Webz\",\"password\":\"test\"\x7d\x7d" :=
  rfl

/-- The single-field `TestUpdateUser` vectors. -/
theorem updateUserBody_single_field_vectors :
    updateUserBody { emptyUser with email := "spoody@local.test" }
      = "\x7b\"user\":\x7b\"email\":\"spoody@local.test\"\x7d\x7d"
    ∧ updateUserBody { emptyUser with firstName := "Spooder" }
      = "\x7b\"user\":\x7b\"first_name\":\"Spooder\"\x7d\x7d"
    ∧ updateUserBody { emptyUser with lastName := "Webz" }
      = "\x7b\"user\":\x7b\"last_name\":\"Webz\"\x7d\x7d"
    ∧ updateUserBody { emptyUser with password := "test" }
      = "\x7b\"user\":\x7b\"password\":\"test\"\x7d\x7d"
    ∧ updateUserBody { emptyUser with kind := "student" }
      = "\x7b\"user\":\x7b\"kind\":\"student\"\x7d\x7d" :=
  ⟨rfl, rfl, rfl, rfl, rfl⟩

/-- C3: the `UpdateUser` envelope holds exactly the set fields — a
key/value pair occurs in the serialized field list precisely when the
corresponding patch field is non-empty, under its snake_case key; the
body is that field list inside the `"user"` envelope. -/
theorem updateUser_serializes_exactly_set_fields (u : User) (k v : String) :
    updateUserBody u = "\x7b\"user\":" ++ encodeStrObj (updateUserFields u) ++ "\x7d"
    ∧ ((k, v) ∈ updateUserFields u ↔
        (k = "email" ∧ v = u.email ∧ u.email ≠ "")
        ∨ (k = "first_name" ∧ v = u.firstName ∧ u.firstName ≠ "")
        ∨ (k = "kind" ∧ v = u.kind ∧ u.kind ≠ "")
        ∨ (k = "last_name" ∧ v = u.lastName ∧ u.lastName ≠ "")
        ∨ (k = "password" ∧ v = u.password ∧ u.password ≠ "")) := by
  constructor
  · rfl
  · by_cases h1 : u.email = "" <;> by_cases h2 : u.firstName = "" <;>
      by_cases h3 : u.kind = "" <;> by_cases h4 : u.lastName = "" <;>
      by_cases h5 : u.password = "" <;>
      simp [updateUserFields, h1, h2, h3, h4, h5]

/-- Modelled from the spec: the shared shape of a body-carrying resource
operation (spec 4.1, guarantee paragraph; the resource-method
implementations are absent from the sources).  The body is encoded first;
only when encoding succeeded is the transport invoked, and the decoded
response is then applied to the caller's value.  The result carries the
operation outcome, the caller's `User` after the call, and the number of
transport invocations. -/
def operationWithBody (encode : User → Except String String)
    (httpDo : Request → Response) (applyResp : User → Response → User)
    (u : User) (path : String) : Except String Unit × User × Nat :=
  match encode u with
  | Except.error e => (Except.error e, u, 0)
  | Except.ok body =>
    (Except.ok (),
     applyResp u (httpDo { method := "POST"
                           url := path
                           contentType := "application/json"
                           body := body }),
     1)

/-- C8: a failure while constructing the request — `http.NewRequest`
failing in `Get`'s construction branch, or a body-encoding failure in a
body-carrying operation — is returned to the caller with zero transport
invocations, and the caller's `User` is unchanged. -/
theorem construction_failure_precedes_network :
    (∀ (ft : FtAPI) (newReq : String → String → Except String Request)
        (httpDo : Request → Response) (url e : String),
        newReq "GET" (ft.apiEndpoint ++ url) = Except.error e →
        ft.get newReq httpDo url = (Except.error e, 0))
    ∧ (∀ (encode : User → Except String String) (httpDo : Request → Response)
        (applyResp : User → Response → User) (u : User) (path e : String),
        encode u = Except.error e →
        operationWithBody encode httpDo applyResp u path
          = (Except.error e, u, 0)) := by
  constructor
  · intro ft newReq httpDo url e h
    unfold FtAPI.get
    rw [h]
  · intro encode httpDo applyResp u path e h
    unfold operationWithBody
    rw [h]

/-- Witness for C8: a request builder that always fails and an encoder
that always fails, each observed to surface the failure with zero
transport invocations and the caller's value intact. -/
theorem construction_failure_precedes_network_witness :
    (FtAPI.new "http://server").get (fun _ _ => Except.error "invalid URL")
        rateLimitedTransport "/v2/users"
      = (Except.error "invalid URL", 0)
    ∧ operationWithBody (fun _ => Except.error "encode failure")
        rateLimitedTransport (fun u _ => u) emptyUser "/users"
      = (Except.error "encode failure", emptyUser, 0) :=
  ⟨construction_failure_precedes_network.1 (FtAPI.new "http://server")
      (fun _ _ => Except.error "invalid URL") rateLimitedTransport
      "/v2/users" "invalid URL" rfl,
   construction_failure_precedes_network.2
      (fun _ => Except.error "encode failure") rateLimitedTransport
      (fun u _ => u) emptyUser "/users" "encode failure" rfl⟩

/-- A JSON value as the correction-points body uses them: a string or an
integer. -/
inductive JVal where
  | s (v : String)
  | n (v : Int)
deriving DecidableEq, Repr

/-- A JSON-bodied request: verb, path, and the body's fields. -/
structure JSONRequest where
  method : String
  path : String
  fields : List (String × JVal)
deriving DecidableEq, Repr

/-- Modelled from the spec: the request of `AddCorrectionPoints` (spec
4.3), whose implementation is absent from the sources — a POST to the
per-user add sub-path with a JSON body of amount and reason. -/
def addCorrectionPointsRequest (login : String) (amount : Int)
    (reason : String) : JSONRequest :=
  { method := "POST",
    path := "/users/" ++ login ++ "/correction_points/add",
    fields := [("amount", JVal.n amount), ("reason", JVal.s reason)] }

/-- Modelled from the spec: the request of `RemoveCorrectionPoints` (spec
4.3), whose implementation is absent from the sources — a DELETE to the
per-user remove sub-path with the same body. -/
def removeCorrectionPointsRequest (login : String) (amount : Int)
    (reason : String) : JSONRequest :=
  { method := "DELETE",
    path := "/users/" ++ login ++ "/correction_points/remove",
    fields := [("amount", JVal.n amount), ("reason", JVal.s reason)] }

/-- C9: `AddCorrectionPoints` issues a POST to the per-user add sub-path
and `RemoveCorrectionPoints` a DELETE to the per-user remove sub-path;
both bodies hold exactly the keys `amount` and `reason` with the given
values. -/
theorem correctionPoints_requests (login : String) (amount : Int)
    (reason : String) (k : String) (v : JVal) :
    (addCorrectionPointsRequest login amount reason).method = "POST"
    ∧ (addCorrectionPointsRequest login amount reason).path
        = "/users/" ++ login ++ "/correction_points/add"
    ∧ (removeCorrectionPointsRequest login amount reason).method = "DELETE"
    ∧ (removeCorrectionPointsRequest login amount reason).path
        = "/users/" ++ login ++ "/correction_points/remove"
    ∧ (removeCorrectionPointsRequest login amount reason).fields
        = (addCorrectionPointsRequest login amount reason).fields
    ∧ ((k, v) ∈ (addCorrectionPointsRequest login amount reason).fields ↔
        (k = "amount" ∧ v = JVal.n amount)
        ∨ (k = "reason" ∧ v = JVal.s reason)) := by
  refine ⟨rfl, rfl, rfl, rfl, rfl, ?_⟩
  simp [addCorrectionPointsRequest]

/-- A single part of a multipart form body. -/
structure MultipartPart where
  fieldName : String
  filename : String
  contentDisposition : String
  size : Nat
deriving DecidableEq, Repr

/-- A multipart request: verb, path, content type (carrying the boundary)
and the single file part. -/
structure MultipartRequest where
  method : String
  path : String
  contentType : String
  part : MultipartPart
deriving DecidableEq, Repr

/-- Modelled from the spec: multipart body assembly (spec 4.1 and 6; the
upload implementation is absent from the sources) — a single-part form
whose field name is fixed per operation, whose filename and byte length
come from the supplied stream, and whose Content-Disposition reflects
both. -/
def mkMultipartPart (fieldName filename : String) (content : List Nat) :
    MultipartPart :=
  { fieldName := fieldName,
    filename := filename,
    contentDisposition :=
      "form-data; name=\"" ++ fieldName ++ "\"; filename=\"" ++ filename ++ "\"",
    size := content.length }

/-- Modelled from the spec: the request of `SetUserImage` (spec 4.3),
whose implementation is absent from the sources — a PATCH to the per-user
path with a multipart body under the fixed field name `user[image]`, the
content type carrying the generated boundary. -/
def setUserImageRequest (login filename : String) (content : List Nat)
    (boundary : String) : MultipartRequest :=
  { method := "PATCH",
    path := "/users/" ++ login,
    contentType := "multipart/form-data; boundary=" ++ boundary,
    part := mkMultipartPart "user[image]" filename content }

/-- C7: uploading a 99,412-byte stream named `profile_photo.png` produces
a file part whose Content-Disposition reads exactly
`form-data; name="user[image]"; filename="profile_photo.png"`, whose size
is exactly 99412, and a request whose content type is multipart/form-data
with the generated boundary. -/
theorem setUserImage_multipart_contract (login boundary : String)
    (content : List Nat) (h : content.length = 99412) :
    (setUserImageRequest login "profile_photo.png" content boundary).part.contentDisposition
      = "form-data; name=\"user[image]\"; filename=\"profile_photo.png\""
    ∧ (setUserImageRequest login "profile_photo.png" content boundary).part.size
      = 99412
    ∧ (setUserImageRequest login "profile_photo.png" content boundary).contentType
      = "multipart/form-data; boundary=" ++ boundary :=
  ⟨rfl, h, rfl⟩

/-- Witness for C7 with a concrete 99,412-byte content stream. -/
theorem setUserImage_multipart_contract_witness :
    (setUserImageRequest "spoody" "profile_photo.png" (List.replicate 99412 0) "b42").part.contentDisposition
      = "form-data; name=\"user[image]\"; filename=\"profile_photo.png\""
    ∧ (setUserImageRequest "spoody" "profile_photo.png" (List.replicate 99412 0) "b42").part.size
      = 99412
    ∧ (setUserImageRequest "spoody" "profile_photo.png" (List.replicate 99412 0) "b42").contentType
      = "multipart/form-data; boundary=" ++ "b42" :=
  setUserImage_multipart_contract "spoody" "b42" (List.replicate 99412 0)
    (List.length_replicate 99412 0)

/-- Modelled from the spec: one page of a paginated collection (spec 4.4;
`GetUserProjects` is absent from the sources) — the server serves the full
collection in fixed-size pages numbered from 1. -/
def pageOf {α : Type} (all : List α) (size page : Nat) : List α :=
  (all.drop ((page - 1) * size)).take size

/-- The page loop of `NewRepoPathCmd` (`cmd/repo_path.go` lines 23-33)
reduced to its termination behaviour: starting at page `i`, return the
number of the first page that comes back empty (`fuel` bounds the
search). -/
def loopFirstEmpty {α : Type} (fetch : Nat → List α) : Nat → Nat → Option Nat
  | 0, _ => none
  | fuel + 1, i =>
    match fetch i with
    | [] => some i
    | _ :: _ => loopFirstEmpty fetch fuel (i + 1)

/-- Given enough fuel to reach an empty page, the page loop stops at
exactly the first empty page. -/
theorem loopFirstEmpty_finds_first {α : Type} (fetch : Nat → List α)
    (fuel i j : Nat) (hij : i ≤ j) (hj : j < i + fuel) (hempty : fetch j = []) :
    ∃ p, loopFirstEmpty fetch fuel i = some p ∧ fetch p = []
      ∧ ∀ q, i ≤ q → q < p → fetch q ≠ [] := by
  induction fuel generalizing i j with
  | zero => omega
  | succ n ih =>
    cases hfi : fetch i with
    | nil =>
      refine ⟨i, ?_, hfi, ?_⟩
      · simp [loopFirstEmpty, hfi]
      · intro q hq1 hq2
        exfalso
        omega
    | cons x xs =>
      have hi : fetch i ≠ [] := by
        rw [hfi]
        simp
      have hij2 : i + 1 ≤ j := by
        rcases Nat.eq_or_lt_of_le hij with rfl | hlt
        · exact absurd hempty hi
        · exact hlt
      obtain ⟨p, hp, hpe, hmin⟩ := ih (i + 1) j hij2 (by omega) hempty
      refine ⟨p, ?_, hpe, ?_⟩
      · simp [loopFirstEmpty, hfi, hp]
      · intro q hq1 hq2
        rcases Nat.eq_or_lt_of_le hq1 with rfl | hlt
        · exact hi
        · exact hmin q hlt hq2

/-- C5: a page past the last element is empty (and page fetching is total,
so no error accompanies it); page 1 of a non-empty collection holds at
least one element; and the caller loop of `NewRepoPathCmd` stops at
exactly the first page that comes back empty. -/
theorem pagination_protocol :
    (∀ (all : List Nat) (size page : Nat),
        all.length ≤ (page - 1) * size → pageOf all size page = [])
    ∧ (∀ (all : List Nat) (size : Nat), 0 < size → all ≠ [] →
        pageOf all size 1 ≠ [])
    ∧ (∀ (all : List Nat) (size : Nat), 0 < size →
        ∃ p, loopFirstEmpty (pageOf all size) (all.length + 1) 1 = some p
          ∧ pageOf all size p = []
          ∧ ∀ q, 1 ≤ q → q < p → pageOf all size q ≠ []) := by
  refine ⟨?_, ?_, ?_⟩
  · intro all size page h
    unfold pageOf
    rw [List.drop_eq_nil_of_le h]
    simp
  · intro all size hs hne
    obtain ⟨s, rfl⟩ : ∃ s, size = s + 1 := ⟨size - 1, by omega⟩
    cases all with
    | nil => exact absurd rfl hne
    | cons a as => simp [pageOf]
  · intro all size hs
    have hempty : pageOf all size (all.length + 1) = [] := by
      unfold pageOf
      rw [List.drop_eq_nil_of_le]
      · simp
      · calc all.length = all.length * 1 := (Nat.mul_one _).symm
          _ ≤ all.length * size := Nat.mul_le_mul_left _ hs
          _ = (all.length + 1 - 1) * size := by simp
    exact loopFirstEmpty_finds_first (pageOf all size) (all.length + 1) 1
      (all.length + 1) (by omega) (by omega) hempty

/-- Witness for C5 over the three-element collection paged two at a
time. -/
theorem pagination_protocol_witness :
    pageOf [10, 20, 30] 2 3 = ([] : List Nat)
    ∧ pageOf ([10, 20, 30] : List Nat) 2 1 ≠ []
    ∧ ∃ p, loopFirstEmpty (pageOf ([10, 20, 30] : List Nat) 2) 4 1 = some p
        ∧ pageOf ([10, 20, 30] : List Nat) 2 p = []
        ∧ ∀ q, 1 ≤ q → q < p → pageOf ([10, 20, 30] : List Nat) 2 q ≠ [] :=
  ⟨pagination_protocol.1 [10, 20, 30] 2 3 (by decide),
   pagination_protocol.2.1 [10, 20, 30] 2 (by decide) (by decide),
   pagination_protocol.2.2 [10, 20, 30] 2 (by decide)⟩

/-- A project team as the repo-path command sees it: the repository URL is
empty until the team is actually provisioned (spec 3, data model). -/
structure Team where
  repoURL : String
deriving DecidableEq, Repr

/-- One entry of `GetUserProjects`: the project's slug and the teams
formed for it. -/
structure UserProjectEntry where
  slug : String
  teams : List Team
deriving DecidableEq, Repr

/-- Modelled from the spec: `currentTeam`, called by `NewRepoPathCmd`
(`cmd/repo_path.go` line 42) but absent from the sources — it selects the
team currently in effect for a project entry, here the most recent one,
and fails when the entry has no team. -/
def currentTeam (e : UserProjectEntry) : Except String Team :=
  match e.teams.getLast? with
  | some t => Except.ok t
  | none => Except.error "no team"

/-- The observable outcome of the repo-path command: the repository URL
printed to stdout with a nil return, the repository-not-found message
printed to stderr with a nil return, an error from team selection, or the
not-in-your-projects error return. -/
inductive CmdOutcome where
  | printedRepo (url : String)
  | repoNotFound (slug : String)
  | teamError (msg : String)
  | notInProjects (slug : String)
deriving DecidableEq, Repr

/-- Whether the outcome is a non-nil error return of the command (the
first two outcomes return nil). -/
def CmdOutcome.isError : CmdOutcome → Bool
  | CmdOutcome.printedRepo _ => false
  | CmdOutcome.repoNotFound _ => false
  | CmdOutcome.teamError _ => true
  | CmdOutcome.notInProjects _ => true

/-- The per-page scan of `NewRepoPathCmd` (`cmd/repo_path.go` lines
34-52): entries whose slug differs from the argument are skipped, as are
matching entries with zero teams; the first remaining entry decides the
outcome from its current team's repository URL. -/
def searchPage (slug : String) : List UserProjectEntry → Option CmdOutcome
  | [] => none
  | e :: rest =>
    if slug ≠ e.slug then searchPage slug rest
    else if e.teams = [] then searchPage slug rest
    else
      match currentTeam e with
      | Except.error m => some (CmdOutcome.teamError m)
      | Except.ok t =>
        if t.repoURL = "" then some (CmdOutcome.repoNotFound slug)
        else some (CmdOutcome.printedRepo t.repoURL)

/-- The page loop of `NewRepoPathCmd` (`cmd/repo_path.go` lines 23-33 and
54-55), run over the finite sequence of pages the server returns (a fetch
past the listed pages yields the empty page): an empty page breaks the
loop into the not-in-your-projects error; otherwise the page scan decides
and a decided outcome returns at once. -/
def runRepoPath (slug : String) : List (List UserProjectEntry) → CmdOutcome
  | [] => CmdOutcome.notInProjects slug
  | page :: rest =>
    if page = [] then CmdOutcome.notInProjects slug
    else
      match searchPage slug page with
      | some outcome => outcome
      | none => runRepoPath slug rest

/-- A page all of whose entries mismatch the slug or carry zero teams is
scanned without an outcome. -/
theorem searchPage_skips_all (slug : String) (page : List UserProjectEntry)
    (h : ∀ e ∈ page, e.slug ≠ slug ∨ e.teams = []) :
    searchPage slug page = none := by
  induction page with
  | nil => rfl
  | cons e rest ih =>
    have hrest : searchPage slug rest = none :=
      ih fun x hx => h x (List.mem_cons_of_mem e hx)
    rcases h e (List.mem_cons_self e rest) with hs | ht
    · simp only [searchPage]
      rw [if_pos (Ne.symm hs)]
      exact hrest
    · by_cases hss : slug ≠ e.slug
      · simp only [searchPage]
        rw [if_pos hss]
        exact hrest
      · simp only [searchPage]
        rw [if_neg hss, if_pos ht]
        exact hrest

/-- Scanning skippable entries in front of a page tail changes nothing. -/
theorem searchPage_append_skips (slug : String)
    (pre rest : List UserProjectEntry)
    (h : ∀ e ∈ pre, e.slug ≠ slug ∨ e.teams = []) :
    searchPage slug (pre ++ rest) = searchPage slug rest := by
  induction pre with
  | nil => rfl
  | cons e pr ih =>
    have htail : searchPage slug (pr ++ rest) = searchPage slug rest :=
      ih fun x hx => h x (List.mem_cons_of_mem e hx)
    rcases h e (List.mem_cons_self e pr) with hs | ht
    · simp only [List.cons_append, searchPage]
      rw [if_pos (Ne.symm hs)]
      exact htail
    · by_cases hss : slug ≠ e.slug
      · simp only [List.cons_append, searchPage]
        rw [if_pos hss]
        exact htail
      · simp only [List.cons_append, searchPage]
        rw [if_neg hss, if_pos ht]
        exact htail

/-- C10: when no page holds an entry matching the slug with a non-empty
team list, the command ends in the non-nil not-in-your-projects error
(matching entries with zero teams are skipped on the way); when the first
deciding entry's current team has an empty repository URL, the command
ends in the repository-not-found message on stderr with a nil return,
whatever follows it. -/
theorem repoPath_outcomes :
    (∀ (slug : String) (pages : List (List UserProjectEntry)),
        (∀ page ∈ pages, ∀ e ∈ page, e.slug ≠ slug ∨ e.teams = []) →
        runRepoPath slug pages = CmdOutcome.notInProjects slug
          ∧ (CmdOutcome.notInProjects slug).isError = true)
    ∧ (∀ (slug : String) (pre post : List UserProjectEntry)
          (ts : List Team) (t : Team) (pages : List (List UserProjectEntry)),
        (∀ e ∈ pre, e.slug ≠ slug ∨ e.teams = []) →
        ts.getLast? = some t → t.repoURL = "" →
        runRepoPath slug
            ((pre ++ { slug := slug, teams := ts } :: post) :: pages)
          = CmdOutcome.repoNotFound slug
          ∧ (CmdOutcome.repoNotFound slug).isError = false) := by
  constructor
  · intro slug pages h
    refine ⟨?_, rfl⟩
    induction pages with
    | nil => rfl
    | cons page rest ih =>
      have hpage := h page (List.mem_cons_self page rest)
      have hrest : runRepoPath slug rest = CmdOutcome.notInProjects slug :=
        ih fun pg hpg => h pg (List.mem_cons_of_mem page hpg)
      by_cases hemp : page = []
      · simp only [runRepoPath]
        rw [if_pos hemp]
      · simp only [runRepoPath]
        rw [if_neg hemp, searchPage_skips_all slug page hpage]
        exact hrest
  · intro slug pre post ts t pages hpre hlast hurl
    refine ⟨?_, rfl⟩
    have hts : ts ≠ [] := by
      intro hnil
      rw [hnil] at hlast
      simp at hlast
    have hct : currentTeam { slug := slug, teams := ts } = Except.ok t := by
      unfold currentTeam
      rw [hlast]
    have hdecide :
        searchPage slug ({ slug := slug, teams := ts } :: post)
          = some (CmdOutcome.repoNotFound slug) := by
      simp only [searchPage]
      rw [if_neg (fun hne => hne rfl), if_neg hts, hct]
      simp [hurl]
    have hne : pre ++ ({ slug := slug, teams := ts } : UserProjectEntry) :: post ≠ [] := by
      simp
    simp only [runRepoPath]
    rw [if_neg hne, searchPage_append_skips slug pre _ hpre, hdecide]

/-- Witness for C10: a two-page search with only mismatching or team-less
entries ends in the error, and a page whose deciding entry's team has an
empty repository URL ends in the repository-not-found outcome. -/
theorem repoPath_outcomes_witness :
    runRepoPath "libft"
        [[{ slug := "ft_printf", teams := [{ repoURL := "git@vog:ft" }] }],
         [{ slug := "libft", teams := [] }]]
      = CmdOutcome.notInProjects "libft"
    ∧ (CmdOutcome.notInProjects "libft").isError = true
    ∧ runRepoPath "libft"
        [[{ slug := "libft", teams := [] },
          { slug := "libft", teams := [{ repoURL := "" }] }]]
      = CmdOutcome.repoNotFound "libft"
    ∧ (CmdOutcome.repoNotFound "libft").isError = false := by
  have h1 := repoPath_outcomes.1 "libft"
    [[{ slug := "ft_printf", teams := [{ repoURL := "git@vog:ft" }] }],
     [{ slug := "libft", teams := [] }]]
    (by decide)
  have h2 := repoPath_outcomes.2 "libft"
    [{ slug := "libft", teams := [] }] [] [{ repoURL := "" }]
    { repoURL := "" } [] (by decide) (by decide) (by decide)
  exact ⟨h1.1, h1.2, h2.1, h2.2⟩

end Goft
